import Mathlib

/-!
Shallow embedding of `src/data/safe_subprocess.py` (the sandboxed
process-execution engine).  Effectful host interactions (process launch,
`/proc` sampling, pipe reads, `p.poll()`, wall-clock readings) are modelled
by an explicit oracle environment `RunEnv`; the control flow of `run` and
its helpers is translated line by line.  Machine floats that only ever hold
exact small values (tick counts, percentages) are modelled as `ℚ`.
-/

namespace SafeSubprocess

/-- `MAX_BYTES_PER_READ = 1024` (module constant). -/
def MAX_BYTES_PER_READ : Nat := 1024

/-! ## Launcher / Reaper configuration (lines 102-114 and 181-187)

`popen_kw` receives `start_new_session=True` only when `SANDBOX_UID` is
configured; on Windows (`os.name == "nt"`) with `CREATE_NEW_PROCESS_GROUP`
available it receives that creation flag instead.  Afterwards
`process_group_id = os.getpgid(p.pid) if hasattr(os, "getpgid") else None`,
and teardown does `os.killpg(process_group_id, SIGKILL)` when that value is
not `None`, else `p.kill()`. -/

structure LaunchConfig where
  /-- `SANDBOX_UID` from the environment module (`None` = unset). -/
  sandboxUid : Option Nat
  /-- whether `os.name == "nt"` (Windows); otherwise POSIX. -/
  osIsNt : Bool
  /-- whether `subprocess.CREATE_NEW_PROCESS_GROUP` exists (Windows only). -/
  hasCreateNewProcessGroup : Bool
  deriving Repr, DecidableEq

/-- Line 105: `popen_kw["start_new_session"] = True` exactly in the
`SANDBOX_UID is not None` branch. -/
def startNewSession (c : LaunchConfig) : Bool :=
  c.sandboxUid.isSome

/-- Lines 106-107: the `creationflags = CREATE_NEW_PROCESS_GROUP` branch. -/
def ntNewProcessGroup (c : LaunchConfig) : Bool :=
  !c.sandboxUid.isSome && c.osIsNt && c.hasCreateNewProcessGroup

/-- `hasattr(os, "getpgid")`: the facility exists on POSIX, not on Windows. -/
def hasGetpgid (c : LaunchConfig) : Bool :=
  !c.osIsNt

/-- The process group the child ends up in: `start_new_session=True` runs
`setsid()` in the child, which makes the child the leader of a fresh group
(its own pid); otherwise the child inherits the caller's process group. -/
def childPgid (c : LaunchConfig) (callerPgid childPid : Nat) : Nat :=
  if startNewSession c then childPid else callerPgid

/-- Line 114: `process_group_id = os.getpgid(p.pid) if hasattr(os, "getpgid")
else None`. -/
def processGroupId (c : LaunchConfig) (callerPgid childPid : Nat) : Option Nat :=
  if hasGetpgid c then some (childPgid c callerPgid childPid) else none

/-- Where the Reaper's kill signal is delivered. -/
inductive KillTarget where
  /-- `os.killpg(g, SIGKILL)` -/
  | group (g : Nat)
  /-- `p.kill()` on the single tracked process -/
  | single
  deriving Repr, DecidableEq

/-- Lines 181-187: kill the process group when `process_group_id` is not
`None`, otherwise the single process. -/
def killTarget (c : LaunchConfig) (callerPgid childPid : Nat) : KillTarget :=
  match processGroupId c callerPgid childPid with
  | some g => .group g
  | none => .single

/-! ## `read_stream` (lines 123-136, thread body on the Windows path)

The blocked stream is modelled as the finite list of chunks successive
`stream.read(MAX_BYTES_PER_READ)` calls return (each at most 1024 bytes);
an exhausted list behaves like end-of-file (`read` returns `b""`). -/

def read_stream (maxOutputSize : Nat) :
    List (List Nat) → Nat → List (List Nat) → List (List Nat) × Nat
  | [], size, acc => (acc, size)
  | c :: cs, size, acc =>
    if size < maxOutputSize then
      if c = [] then (acc, size)
      else read_stream maxOutputSize cs (size + c.length) (acc ++ [c])
    else (acc, size)

/-! ## UTF-8 decoding (lines 191-192)

`b"".join(chunks).decode("utf-8", errors="ignore")`.  The decoder below
follows CPython's UTF-8 decoder: a valid sequence yields its scalar value;
an invalid prefix triggers the error action once and decoding resumes after
the longest valid prefix of the bad sequence.  The error action is a
parameter: `[]` for `errors="ignore"` (bytes dropped), `[U+FFFD]` for
`errors="replace"`.  Either way the decoder is total: it never raises. -/

/-- Continuation byte: `0x80..0xBF`. -/
def isCont (b : Nat) : Bool := 0x80 ≤ b && b ≤ 0xBF

/-- Lower bound for the second byte of a multi-byte sequence (tightened for
leads `0xE0`/`0xF0` to reject overlong encodings). -/
def contLo (b : Nat) : Nat :=
  if b = 0xE0 then 0xA0 else if b = 0xF0 then 0x90 else 0x80

/-- Upper bound for the second byte (tightened for lead `0xED` to reject
surrogates and `0xF4` to stay below `U+110000`). -/
def contHi (b : Nat) : Nat :=
  if b = 0xED then 0x9F else if b = 0xF4 then 0x8F else 0xBF

/-- Total UTF-8 decoder with an explicit error action `err`. -/
def utf8DecodeWith (err : List Char) : List Nat → List Char
  | [] => []
  | b :: bs =>
    if b ≤ 0x7F then Char.ofNat b :: utf8DecodeWith err bs
    else if b < 0xC2 then err ++ utf8DecodeWith err bs
    else if b ≤ 0xDF then
      match bs with
      | [] => err
      | b2 :: bs2 =>
        if isCont b2 then
          Char.ofNat ((b - 0xC0) * 64 + (b2 - 0x80)) :: utf8DecodeWith err bs2
        else err ++ utf8DecodeWith err (b2 :: bs2)
    else if b ≤ 0xEF then
      match bs with
      | [] => err
      | b2 :: bs2 =>
        if contLo b ≤ b2 ∧ b2 ≤ contHi b then
          match bs2 with
          | [] => err
          | b3 :: bs3 =>
            if isCont b3 then
              Char.ofNat ((b - 0xE0) * 4096 + (b2 - 0x80) * 64 + (b3 - 0x80)) ::
                utf8DecodeWith err bs3
            else err ++ utf8DecodeWith err (b3 :: bs3)
        else err ++ utf8DecodeWith err (b2 :: bs2)
    else if b ≤ 0xF4 then
      match bs with
      | [] => err
      | b2 :: bs2 =>
        if contLo b ≤ b2 ∧ b2 ≤ contHi b then
          match bs2 with
          | [] => err
          | b3 :: bs3 =>
            if isCont b3 then
              match bs3 with
              | [] => err
              | b4 :: bs4 =>
                if isCont b4 then
                  Char.ofNat ((b - 0xF0) * 262144 + (b2 - 0x80) * 4096 +
                      (b3 - 0x80) * 64 + (b4 - 0x80)) :: utf8DecodeWith err bs4
                else err ++ utf8DecodeWith err (b4 :: bs4)
            else err ++ utf8DecodeWith err (b3 :: bs3)
        else err ++ utf8DecodeWith err (b2 :: bs2)
    else err ++ utf8DecodeWith err bs

/-- `errors="ignore"`: the error action drops the offending bytes.  This is
what line 191-192 of the source uses. -/
def utf8DecodeIgnore : List Nat → List Char := utf8DecodeWith []

/-- Modelled from the spec's words ("decoded as UTF-8 with invalid sequences
replaced rather than raising"): `errors="replace"`, each invalid prefix
becomes `U+FFFD`.  For comparison with the source's `errors="ignore"`. -/
def utf8DecodeReplace : List Nat → List Char := utf8DecodeWith [Char.ofNat 0xFFFD]

/-! ## Python `round(x, 2)` on exact values

CPython's `round` ties to even.  Floating-point representation error is out
of scope; every value this program rounds in the claims below is an exact
small rational. -/

/-- Round to the nearest integer, ties to even, in exact integer
arithmetic: with `f = ⌊q⌋` (`Int.fdiv` is floor division and a rational's
denominator is positive) and fractional remainder `r/d`, compare `2r`
against `d` to decide whether the fraction is below, above or exactly one
half. -/
def roundHalfEven (q : ℚ) : ℤ :=
  let f := q.num.fdiv (q.den : ℤ)
  let r := q.num - f * (q.den : ℤ)
  if 2 * r < (q.den : ℤ) then f
  else if (q.den : ℤ) < 2 * r then f + 1
  else if f % 2 = 0 then f else f + 1

/-- `round(q, 2)`. -/
def pyRound2 (q : ℚ) : ℚ := (roundHalfEven (q * 100) : ℚ) / 100

/-! ## The `run` polling loop (POSIX non-blocking path, lines 108-213)

Host interactions are an oracle indexed by the loop tick: what
`get_process_cpu_mem` returns, what the non-blocking pipe reads return
(`[]` models both `b""` and `None`, the two falsy "nothing arrived"
results), and what `p.poll()` returns.  `get_process_cpu_mem` never raises
(it catches everything and returns `(0, 0)`), so it is modelled total; a
failed sample is a tick whose oracle values are zero. -/

structure RunEnv where
  /-- `subprocess.Popen` succeeds; when false it raises and `run` propagates. -/
  launchOk : Bool
  /-- first component of `get_process_cpu_mem(p.pid)` at tick `i`: the tree's
  summed user+system CPU ticks (`/proc/<pid>/stat` fields 14-17). -/
  sampleCpu : Nat → Nat
  /-- second component at tick `i`: summed `VmPeak` of the tree, in kB. -/
  sampleMem : Nat → Nat
  /-- `p.poll()` at tick `i`: `none` while running, `some c` once exited. -/
  pollAt : Nat → Option Int
  /-- bytes returned by `p.stdout.read(MAX_BYTES_PER_READ)` at tick `i`. -/
  stdoutAt : Nat → List Nat
  /-- bytes returned by `p.stderr.read(MAX_BYTES_PER_READ)` at tick `i`. -/
  stderrAt : Nat → List Nat
  /-- `get_system_cpu()` reading taken right after launch (line 110). -/
  systemCpuStart : Nat
  /-- `get_system_cpu()` reading taken at teardown (line 193). -/
  systemCpuEnd : Nat
  /-- `end_time - start_time` wall-clock duration in seconds. -/
  execTime : ℚ
  /-- `SC_CLK_TCK` (ticks per second, 100 when `sysconf` is unavailable). -/
  clkTck : Nat
  /-- `CPU_COUNT` (`os.cpu_count() or 1`). -/
  cpuCount : Nat

/-- The local variables of `run` that the loop mutates.  `exitCodeVar`
models the Python local `exit_code`: `none` means the name was never bound
(reading it at line 189 raises `NameError`); `some v` means the last
`p.poll()` stored `v`. -/
structure LoopState where
  process_cpu : ℚ
  process_peak_memory : Nat
  stdout_saved_bytes : List (List Nat)
  stderr_saved_bytes : List (List Nat)
  stdout_bytes_read : Nat
  stderr_bytes_read : Nat
  exitCodeVar : Option (Option Int)
  deriving DecidableEq

/-- Lines 111-121: `process_cpu = 0`, `process_peak_memory = 0`, empty
buffers, zero counters, `exit_code` not yet bound. -/
def LoopState.init : LoopState :=
  { process_cpu := 0
    process_peak_memory := 0
    stdout_saved_bytes := []
    stderr_saved_bytes := []
    stdout_bytes_read := 0
    stderr_bytes_read := 0
    exitCodeVar := none }

/-- One iteration of the POSIX loop body (lines 163-176).  Note that line
164 binds `cur_cpu` and the body then only uses `cur_mem`: `process_cpu` is
never updated from the sample.  (`cur_mem or 0` is the identity on the
non-negative `cur_mem`.) -/
def doTick (env : RunEnv) (max_output_size : Nat) (i : Nat) (s : LoopState) :
    LoopState :=
  let _cur_cpu := env.sampleCpu i
  let cur_mem := env.sampleMem i
  let s := { s with process_peak_memory := max s.process_peak_memory cur_mem }
  let this_stdout_read := env.stdoutAt i
  let this_stderr_read := env.stderrAt i
  let s :=
    if this_stdout_read ≠ [] ∧ s.stdout_bytes_read < max_output_size then
      { s with
        stdout_saved_bytes := s.stdout_saved_bytes ++ [this_stdout_read]
        stdout_bytes_read := s.stdout_bytes_read + this_stdout_read.length }
    else s
  let s :=
    if this_stderr_read ≠ [] ∧ s.stderr_bytes_read < max_output_size then
      { s with
        stderr_saved_bytes := s.stderr_saved_bytes ++ [this_stderr_read]
        stderr_bytes_read := s.stderr_bytes_read + this_stderr_read.length }
    else s
  { s with exitCodeVar := some (env.pollAt i) }

/-- `for _ in range(fuel)` starting at tick `i`, with the early `break` when
`p.poll()` is not `None` (lines 176-178).  Returns the final state and the
number of iterations the body executed. -/
def runLoop (env : RunEnv) (max_output_size : Nat) :
    Nat → Nat → LoopState → LoopState × Nat
  | _, 0, s => (s, 0)
  | i, fuel + 1, s =>
    let s' := doTick env max_output_size i s
    if (env.pollAt i).isSome then (s', 1)
    else
      let r := runLoop env max_output_size (i + 1) fuel s'
      (r.1, r.2 + 1)

/-- The result record assembled at lines 202-212. -/
structure RunResult where
  cmd : List String
  timeout : Bool
  exit_code : Int
  stdout : String
  stderr : String
  process_cpu_util : ℚ
  process_cpu_time : ℚ
  process_exec_time : ℚ
  process_peak_memory : Nat
  deriving DecidableEq

/-- How a call to `run` ends: `Popen` raising (propagated to the caller),
the post-loop read of a never-assigned `exit_code` raising `NameError`, or
a returned result. -/
inductive RunOutcome where
  | launchFailure
  | nameError
  | ok (r : RunResult)
  deriving DecidableEq

/-- The loop's final variable state: `runLoop` over `range(timeout_seconds
* 10)` (line 161) from tick 0 and the fresh locals of lines 111-121.
Python's `range` of a non-positive bound is empty, hence `Int.toNat`. -/
def finalState (env : RunEnv) (max_output_size : Nat) (timeout_seconds : Int) :
    LoopState :=
  (runLoop env max_output_size 0 (timeout_seconds * 10).toNat LoopState.init).1

/-- The number of loop iterations actually executed. -/
def ticksOf (env : RunEnv) (max_output_size : Nat) (timeout_seconds : Int) : Nat :=
  (runLoop env max_output_size 0 (timeout_seconds * 10).toNat LoopState.init).2

/-- Lines 189-212: the result-assembly tail of `run`, given the value `ec`
the local `exit_code` holds after the loop and the loop's final state. -/
def assemble (env : RunEnv) (args : List String) (ec : Option Int)
    (s : LoopState) : RunResult :=
  { cmd := args
    timeout := ec.isNone
    exit_code := ec.getD (-1)
    stdout := String.mk (utf8DecodeIgnore s.stdout_saved_bytes.flatten)
    stderr := String.mk (utf8DecodeIgnore s.stderr_saved_bytes.flatten)
    process_cpu_util :=
      pyRound2 (if env.systemCpuStart ≠ env.systemCpuEnd then
          s.process_cpu / ((env.systemCpuEnd : ℚ) - (env.systemCpuStart : ℚ))
            * 100 * (env.cpuCount : ℚ)
        else 0)
    process_cpu_time := pyRound2 (s.process_cpu / (env.clkTck : ℚ))
    process_exec_time := pyRound2 env.execTime
    process_peak_memory := s.process_peak_memory }

/-- `run(args, timeout_seconds, max_output_size, env, shell, cwd)`:
lines 81-213, POSIX non-blocking path.  `shell` is accepted but unused —
`popen_kw` hardcodes `shell=False` (line 99); `envArg` and `cwd` only
parameterize the child, which the oracle already abstracts. -/
def run (env : RunEnv) (args : List String) (timeout_seconds : Int)
    (max_output_size : Nat) (envArg : Option (List (String × String)))
    (shell : Bool) (cwd : Option String) : RunOutcome :=
  if !env.launchOk then .launchFailure
  else
    match (finalState env max_output_size timeout_seconds).exitCodeVar with
    | none => .nameError
    | some ec =>
      .ok (assemble env args ec (finalState env max_output_size timeout_seconds))

/-! ## Field-wise description of one loop iteration -/

theorem doTick_process_peak_memory (env : RunEnv) (mo i : Nat) (s : LoopState) :
    (doTick env mo i s).process_peak_memory =
      max s.process_peak_memory (env.sampleMem i) := by
  simp only [doTick]
  split <;> split <;> rfl

theorem doTick_process_cpu (env : RunEnv) (mo i : Nat) (s : LoopState) :
    (doTick env mo i s).process_cpu = s.process_cpu := by
  simp only [doTick]
  split <;> split <;> rfl

theorem doTick_exitCodeVar (env : RunEnv) (mo i : Nat) (s : LoopState) :
    (doTick env mo i s).exitCodeVar = some (env.pollAt i) := by
  simp only [doTick]

theorem doTick_stdout (env : RunEnv) (mo i : Nat) (s : LoopState) :
    (doTick env mo i s).stdout_saved_bytes = s.stdout_saved_bytes ++
        (if env.stdoutAt i ≠ [] ∧ s.stdout_bytes_read < mo then [env.stdoutAt i] else []) ∧
    (doTick env mo i s).stdout_bytes_read = s.stdout_bytes_read +
        (if env.stdoutAt i ≠ [] ∧ s.stdout_bytes_read < mo then (env.stdoutAt i).length else 0) := by
  simp only [doTick]
  split <;> split <;> simp

theorem doTick_stderr (env : RunEnv) (mo i : Nat) (s : LoopState) :
    (doTick env mo i s).stderr_saved_bytes = s.stderr_saved_bytes ++
        (if env.stderrAt i ≠ [] ∧ s.stderr_bytes_read < mo then [env.stderrAt i] else []) ∧
    (doTick env mo i s).stderr_bytes_read = s.stderr_bytes_read +
        (if env.stderrAt i ≠ [] ∧ s.stderr_bytes_read < mo then (env.stderrAt i).length else 0) := by
  simp only [doTick]
  split <;> split <;> simp

/-! ## Loop lemmas -/

theorem runLoop_ticks_le (env : RunEnv) (mo : Nat) :
    ∀ (fuel i : Nat) (s : LoopState), (runLoop env mo i fuel s).2 ≤ fuel := by
  intro fuel
  induction fuel with
  | zero => intro i s; simp [runLoop]
  | succ f ih =>
    intro i s
    simp only [runLoop]
    split
    · simp
    · simpa using Nat.succ_le_succ (ih (i + 1) (doTick env mo i s))

theorem runLoop_ticks_pos (env : RunEnv) (mo : Nat) (fuel : Nat) (h : 1 ≤ fuel) :
    ∀ (i : Nat) (s : LoopState), 1 ≤ (runLoop env mo i fuel s).2 := by
  intro i s
  match fuel, h with
  | f + 1, _ =>
    simp only [runLoop]
    split
    · simp
    · simp

theorem runLoop_exitCodeVar (env : RunEnv) (mo : Nat) :
    ∀ (fuel : Nat), 1 ≤ fuel → ∀ (i : Nat) (s : LoopState),
      (runLoop env mo i fuel s).1.exitCodeVar =
        some (env.pollAt (i + ((runLoop env mo i fuel s).2 - 1))) := by
  intro fuel
  induction fuel with
  | zero => intro h; omega
  | succ f ih =>
    intro _ i s
    simp only [runLoop]
    split
    · simpa using doTick_exitCodeVar env mo i s
    · by_cases hf : 1 ≤ f
      · have h1 := runLoop_ticks_pos env mo f hf (i + 1) (doTick env mo i s)
        have h2 := ih hf (i + 1) (doTick env mo i s)
        simp only []
        rw [h2]
        congr 2
        omega
      · have hf0 : f = 0 := by omega
        subst hf0
        simpa using doTick_exitCodeVar env mo i s

theorem runLoop_prefix_none (env : RunEnv) (mo : Nat) :
    ∀ (fuel i : Nat) (s : LoopState) (j : Nat),
      j + 1 < (runLoop env mo i fuel s).2 → env.pollAt (i + j) = none := by
  intro fuel
  induction fuel with
  | zero => intro i s j h; simp [runLoop] at h
  | succ f ih =>
    intro i s j h
    simp only [runLoop] at h
    split at h
    · omega
    · rename_i hpoll
      match j with
      | 0 =>
        simpa using Option.not_isSome_iff_eq_none.mp (by simpa using hpoll)
      | j' + 1 =>
        have : j' + 1 < (runLoop env mo (i + 1) f (doTick env mo i s)).2 := by
          simpa using h
        have := ih (i + 1) (doTick env mo i s) j' this
        simpa [Nat.add_assoc, Nat.add_comm 1 j'] using this

theorem runLoop_early_exit (env : RunEnv) (mo : Nat) :
    ∀ (fuel i : Nat) (s : LoopState),
      (runLoop env mo i fuel s).2 < fuel →
      (env.pollAt (i + ((runLoop env mo i fuel s).2 - 1))).isSome := by
  intro fuel
  induction fuel with
  | zero => intro i s h; omega
  | succ f ih =>
    intro i s h
    by_cases hpoll : (env.pollAt i).isSome = true
    · simp only [runLoop, hpoll, if_true] at h ⊢
      simpa using hpoll
    · rw [Bool.not_eq_true] at hpoll
      simp only [runLoop, hpoll, Bool.false_eq_true, if_false] at h ⊢
      have hlt : (runLoop env mo (i + 1) f (doTick env mo i s)).2 < f := by omega
      have hf : 1 ≤ f := by omega
      have h1 := runLoop_ticks_pos env mo f hf (i + 1) (doTick env mo i s)
      have h2 := ih (i + 1) (doTick env mo i s) hlt
      have harith : i + 1 + ((runLoop env mo (i + 1) f (doTick env mo i s)).2 - 1) =
          i + ((runLoop env mo (i + 1) f (doTick env mo i s)).2 + 1 - 1) := by omega
      rw [harith] at h2
      simpa using h2

theorem runLoop_first_exit (env : RunEnv) (mo : Nat) :
    ∀ (fuel i : Nat) (s : LoopState) (k : Nat), k < fuel →
      (env.pollAt (i + k)).isSome →
      (∀ j, j < k → env.pollAt (i + j) = none) →
      (runLoop env mo i fuel s).2 = k + 1 := by
  intro fuel
  induction fuel with
  | zero => intro i s k h; omega
  | succ f ih =>
    intro i s k hk hsome hfirst
    simp only [runLoop]
    split
    · rename_i hpoll
      have hk0 : k = 0 := by
        by_contra hne
        have h0 := hfirst 0 (by omega)
        simp only [Nat.add_zero] at h0
        rw [h0] at hpoll
        simp at hpoll
      simp [hk0]
    · rename_i hpoll
      have hk0 : k ≠ 0 := by
        intro hk0
        subst hk0
        rw [show i + 0 = i by omega] at hsome
        exact hpoll hsome
      match k, hk0 with
      | k' + 1, _ =>
        have h1 : (env.pollAt (i + 1 + k')).isSome := by
          have : i + 1 + k' = i + (k' + 1) := by omega
          rw [this]; exact hsome
        have h2 : ∀ j, j < k' → env.pollAt (i + 1 + j) = none := by
          intro j hj
          have : i + 1 + j = i + (j + 1) := by omega
          rw [this]
          exact hfirst (j + 1) (by omega)
        have := ih (i + 1) (doTick env mo i s) k' (by omega) h1 h2
        simp only []
        omega

/-! ## Peak-memory accounting -/

/-- The value of the `process_peak_memory` variable after the loop body has
run on ticks `i, i+1, ..., i+n-1`, having started at `acc`. -/
def peakFrom (env : RunEnv) : Nat → Nat → Nat → Nat
  | _, acc, 0 => acc
  | i, acc, n + 1 => peakFrom env (i + 1) (max acc (env.sampleMem i)) n

theorem runLoop_peak (env : RunEnv) (mo : Nat) :
    ∀ (fuel i : Nat) (s : LoopState),
      (runLoop env mo i fuel s).1.process_peak_memory =
        peakFrom env i s.process_peak_memory (runLoop env mo i fuel s).2 := by
  intro fuel
  induction fuel with
  | zero => intro i s; simp [runLoop, peakFrom]
  | succ f ih =>
    intro i s
    by_cases hpoll : (env.pollAt i).isSome = true
    · simp only [runLoop, hpoll, if_true]
      rw [doTick_process_peak_memory]
      rfl
    · rw [Bool.not_eq_true] at hpoll
      simp only [runLoop, hpoll, Bool.false_eq_true, if_false]
      have := ih (i + 1) (doTick env mo i s)
      rw [doTick_process_peak_memory] at this
      exact this

theorem peakFrom_succ (env : RunEnv) :
    ∀ (n i acc : Nat),
      peakFrom env i acc (n + 1) = max (peakFrom env i acc n) (env.sampleMem (i + n)) := by
  intro n
  induction n with
  | zero => intro i acc; simp [peakFrom]
  | succ m ih =>
    intro i acc
    show peakFrom env (i + 1) (max acc (env.sampleMem i)) (m + 1) = _
    rw [ih (i + 1) (max acc (env.sampleMem i))]
    have : i + 1 + m = i + (m + 1) := by omega
    rw [this]
    rfl

theorem le_peakFrom (env : RunEnv) (n i acc : Nat) : acc ≤ peakFrom env i acc n := by
  induction n with
  | zero => exact Nat.le_refl acc
  | succ m ih => rw [peakFrom_succ]; exact le_trans ih (Nat.le_max_left _ _)

theorem peakFrom_mono (env : RunEnv) (n i acc : Nat) :
    peakFrom env i acc n ≤ peakFrom env i acc (n + 1) := by
  rw [peakFrom_succ]; exact Nat.le_max_left _ _

theorem sampleMem_le_peakFrom (env : RunEnv) :
    ∀ (n i acc k : Nat), k < n → env.sampleMem (i + k) ≤ peakFrom env i acc n := by
  intro n
  induction n with
  | zero => intro i acc k h; omega
  | succ m ih =>
    intro i acc k h
    rw [peakFrom_succ]
    by_cases hk : k < m
    · exact le_trans (ih i acc k hk) (Nat.le_max_left _ _)
    · have : k = m := by omega
      subst this
      exact Nat.le_max_right _ _

/-! ## Output-cap invariants -/

theorem runLoop_stdout_count_lt (env : RunEnv) (mo : Nat)
    (hb : ∀ j, (env.stdoutAt j).length ≤ MAX_BYTES_PER_READ) :
    ∀ (fuel i : Nat) (s : LoopState),
      s.stdout_bytes_read < mo + MAX_BYTES_PER_READ →
      (runLoop env mo i fuel s).1.stdout_bytes_read < mo + MAX_BYTES_PER_READ := by
  intro fuel
  induction fuel with
  | zero => intro i s h; simpa [runLoop] using h
  | succ f ih =>
    intro i s h
    have hstep : (doTick env mo i s).stdout_bytes_read < mo + MAX_BYTES_PER_READ := by
      rw [(doTick_stdout env mo i s).2]
      split
      · rename_i hc
        have := hb i
        omega
      · omega
    by_cases hpoll : (env.pollAt i).isSome = true
    · simp only [runLoop, hpoll, if_true]
      exact hstep
    · rw [Bool.not_eq_true] at hpoll
      simp only [runLoop, hpoll, Bool.false_eq_true, if_false]
      exact ih (i + 1) (doTick env mo i s) hstep

theorem runLoop_stderr_count_lt (env : RunEnv) (mo : Nat)
    (hb : ∀ j, (env.stderrAt j).length ≤ MAX_BYTES_PER_READ) :
    ∀ (fuel i : Nat) (s : LoopState),
      s.stderr_bytes_read < mo + MAX_BYTES_PER_READ →
      (runLoop env mo i fuel s).1.stderr_bytes_read < mo + MAX_BYTES_PER_READ := by
  intro fuel
  induction fuel with
  | zero => intro i s h; simpa [runLoop] using h
  | succ f ih =>
    intro i s h
    have hstep : (doTick env mo i s).stderr_bytes_read < mo + MAX_BYTES_PER_READ := by
      rw [(doTick_stderr env mo i s).2]
      split
      · rename_i hc
        have := hb i
        omega
      · omega
    by_cases hpoll : (env.pollAt i).isSome = true
    · simp only [runLoop, hpoll, if_true]
      exact hstep
    · rw [Bool.not_eq_true] at hpoll
      simp only [runLoop, hpoll, Bool.false_eq_true, if_false]
      exact ih (i + 1) (doTick env mo i s) hstep

theorem runLoop_stdout_count_eq_flatten (env : RunEnv) (mo : Nat) :
    ∀ (fuel i : Nat) (s : LoopState),
      s.stdout_bytes_read = s.stdout_saved_bytes.flatten.length →
      (runLoop env mo i fuel s).1.stdout_bytes_read =
        (runLoop env mo i fuel s).1.stdout_saved_bytes.flatten.length := by
  intro fuel
  induction fuel with
  | zero => intro i s h; simpa [runLoop] using h
  | succ f ih =>
    intro i s h
    have hstep : (doTick env mo i s).stdout_bytes_read =
        (doTick env mo i s).stdout_saved_bytes.flatten.length := by
      rw [(doTick_stdout env mo i s).1, (doTick_stdout env mo i s).2]
      split <;> simp [h]
    by_cases hpoll : (env.pollAt i).isSome = true
    · simp only [runLoop, hpoll, if_true]
      exact hstep
    · rw [Bool.not_eq_true] at hpoll
      simp only [runLoop, hpoll, Bool.false_eq_true, if_false]
      exact ih (i + 1) (doTick env mo i s) hstep

theorem runLoop_stderr_count_eq_flatten (env : RunEnv) (mo : Nat) :
    ∀ (fuel i : Nat) (s : LoopState),
      s.stderr_bytes_read = s.stderr_saved_bytes.flatten.length →
      (runLoop env mo i fuel s).1.stderr_bytes_read =
        (runLoop env mo i fuel s).1.stderr_saved_bytes.flatten.length := by
  intro fuel
  induction fuel with
  | zero => intro i s h; simpa [runLoop] using h
  | succ f ih =>
    intro i s h
    have hstep : (doTick env mo i s).stderr_bytes_read =
        (doTick env mo i s).stderr_saved_bytes.flatten.length := by
      rw [(doTick_stderr env mo i s).1, (doTick_stderr env mo i s).2]
      split <;> simp [h]
    by_cases hpoll : (env.pollAt i).isSome = true
    · simp only [runLoop, hpoll, if_true]
      exact hstep
    · rw [Bool.not_eq_true] at hpoll
      simp only [runLoop, hpoll, Bool.false_eq_true, if_false]
      exact ih (i + 1) (doTick env mo i s) hstep

/-! ## `read_stream` invariants -/

theorem read_stream_stops (mo : Nat) (cs : List (List Nat)) (size : Nat)
    (acc : List (List Nat)) (h : mo ≤ size) :
    read_stream mo cs size acc = (acc, size) := by
  cases cs with
  | nil => rfl
  | cons c cs => simp [read_stream, Nat.not_lt.mpr h]

theorem read_stream_size_lt (mo : Nat) :
    ∀ (cs : List (List Nat)) (size : Nat) (acc : List (List Nat)),
      (∀ c ∈ cs, c.length ≤ MAX_BYTES_PER_READ) →
      size < mo + MAX_BYTES_PER_READ →
      (read_stream mo cs size acc).2 < mo + MAX_BYTES_PER_READ := by
  intro cs
  induction cs with
  | nil => intro size acc _ h; simpa [read_stream] using h
  | cons c cs ih =>
    intro size acc hb h
    simp only [read_stream]
    split
    · split
      · simpa using h
      · rename_i hsz _
        have hc : c.length ≤ MAX_BYTES_PER_READ := hb c (List.mem_cons_self c cs)
        exact ih (size + c.length) (acc ++ [c])
          (fun d hd => hb d (List.mem_cons_of_mem c hd)) (by omega)
    · simpa using h

theorem read_stream_size_eq_flatten (mo : Nat) :
    ∀ (cs : List (List Nat)) (size : Nat) (acc : List (List Nat)),
      size = acc.flatten.length →
      (read_stream mo cs size acc).2 = (read_stream mo cs size acc).1.flatten.length := by
  intro cs
  induction cs with
  | nil => intro size acc h; simpa [read_stream] using h
  | cons c cs ih =>
    intro size acc h
    simp only [read_stream]
    split
    · split
      · simpa using h
      · exact ih (size + c.length) (acc ++ [c]) (by simp [h])
    · simpa using h

/-! ## Inverting `run` -/

theorem run_ok_inv (env : RunEnv) (args : List String) (ts : Int) (mo : Nat)
    (ea : Option (List (String × String))) (sh : Bool) (cwd : Option String)
    (r : RunResult) (h : run env args ts mo ea sh cwd = .ok r) :
    env.launchOk = true ∧
    ∃ ec, (finalState env mo ts).exitCodeVar = some ec ∧
      r = assemble env args ec (finalState env mo ts) := by
  unfold run at h
  by_cases hl : env.launchOk = true
  · rw [hl] at h
    simp only [Bool.not_true, Bool.false_eq_true, if_false] at h
    cases hx : (finalState env mo ts).exitCodeVar with
    | none => rw [hx] at h; simp at h
    | some ec =>
      rw [hx] at h
      simp only [RunOutcome.ok.injEq] at h
      exact ⟨hl, ec, rfl, h.symm⟩
  · rw [Bool.not_eq_true] at hl
    rw [hl] at h
    simp at h

theorem run_eq_ok (env : RunEnv) (args : List String) (ts : Int) (mo : Nat)
    (ea : Option (List (String × String))) (sh : Bool) (cwd : Option String)
    (ec : Option Int) (hl : env.launchOk = true)
    (hec : (finalState env mo ts).exitCodeVar = some ec) :
    run env args ts mo ea sh cwd = .ok (assemble env args ec (finalState env mo ts)) := by
  unfold run
  rw [hl]
  simp only [Bool.not_true, Bool.false_eq_true, if_false]
  rw [hec]

theorem finalState_of_nonpos (env : RunEnv) (mo : Nat) (ts : Int) (h : ts ≤ 0) :
    finalState env mo ts = LoopState.init := by
  unfold finalState
  have : (ts * 10).toNat = 0 := by omega
  rw [this]
  rfl

theorem finalState_exitCodeVar_of_pos (env : RunEnv) (mo : Nat) (ts : Int)
    (h : 1 ≤ ts) :
    (finalState env mo ts).exitCodeVar =
      some (env.pollAt (ticksOf env mo ts - 1)) := by
  have hfuel : 1 ≤ (ts * 10).toNat := by omega
  have := runLoop_exitCodeVar env mo (ts * 10).toNat hfuel 0 LoopState.init
  simpa [finalState, ticksOf] using this

/-! ## Concrete witness environments -/

/-- A concrete oracle: launch succeeds, every sample reports 50 CPU ticks,
memory 100 kB then 80 kB, stdout delivers `b"hi"` then the invalid byte
`0xFF`, and the child is seen exited (status 0) at tick 2. -/
def envA : RunEnv :=
  { launchOk := true
    sampleCpu := fun _ => 50
    sampleMem := fun i => if i = 0 then 100 else 80
    pollAt := fun i => if i = 2 then some 0 else none
    stdoutAt := fun i => if i = 0 then [0x68, 0x69] else if i = 1 then [0xFF] else []
    stderrAt := fun _ => []
    systemCpuStart := 0
    systemCpuEnd := 100
    execTime := 1/2
    clkTck := 100
    cpuCount := 4 }

/-- `pyRound2` fixes 0. -/
theorem pyRound2_zero : pyRound2 0 = 0 := by
  have h : (0 : ℚ) * 100 = 0 := by norm_num
  unfold pyRound2
  rw [h]
  have h2 : roundHalfEven 0 = 0 := rfl
  rw [h2]
  norm_num

/-- `pyRound2` fixes values that already have two decimals, such as `1/2`. -/
theorem pyRound2_half : pyRound2 (1/2) = 1/2 := by
  have h : (1/2 : ℚ) * 100 = 50 := by norm_num
  unfold pyRound2
  rw [h]
  have h2 : roundHalfEven 50 = 50 := rfl
  rw [h2]
  norm_num

/-- The record `run` returns on `envA` with a 1-second timeout: the loop
runs ticks 0, 1, 2, sees the exit status 0 at tick 2, and assembles. -/
def rA : RunResult := assemble envA [] (some 0) (finalState envA 2048 1)

theorem run_envA_ok : run envA [] 1 2048 none false none = .ok rA :=
  run_eq_ok envA [] 1 2048 none false none (some 0) rfl rfl

theorem run_launchFailure (env : RunEnv) (args : List String) (ts : Int)
    (mo : Nat) (ea : Option (List (String × String))) (sh : Bool)
    (cwd : Option String) (h : env.launchOk = false) :
    run env args ts mo ea sh cwd = .launchFailure := by
  unfold run
  rw [h]
  rfl

theorem run_nameError_of_nonpos (env : RunEnv) (args : List String) (ts : Int)
    (mo : Nat) (ea : Option (List (String × String))) (sh : Bool)
    (cwd : Option String) (hl : env.launchOk = true) (hts : ts ≤ 0) :
    run env args ts mo ea sh cwd = .nameError := by
  unfold run
  rw [hl, finalState_of_nonpos env mo ts hts]
  rfl

theorem finalState_of_budget_zero (env : RunEnv) (mo : Nat) (ts : Int)
    (h : (ts * 10).toNat = 0) : finalState env mo ts = LoopState.init := by
  unfold finalState
  rw [h]
  rfl

theorem run_ok_budget_pos (env : RunEnv) (args : List String) (ts : Int)
    (mo : Nat) (ea : Option (List (String × String))) (sh : Bool)
    (cwd : Option String) (r : RunResult)
    (h : run env args ts mo ea sh cwd = .ok r) : 1 ≤ (ts * 10).toNat := by
  obtain ⟨hl, ec, hec, _⟩ := run_ok_inv env args ts mo ea sh cwd r h
  by_contra hb
  have h0 : (ts * 10).toNat = 0 := by omega
  rw [finalState_of_budget_zero env mo ts h0] at hec
  simp [LoopState.init] at hec

theorem assemble_timeout (env : RunEnv) (args : List String) (ec : Option Int)
    (s : LoopState) : (assemble env args ec s).timeout = ec.isNone := rfl

theorem assemble_exit_code (env : RunEnv) (args : List String) (ec : Option Int)
    (s : LoopState) : (assemble env args ec s).exit_code = ec.getD (-1) := rfl

theorem assemble_peak (env : RunEnv) (args : List String) (ec : Option Int)
    (s : LoopState) :
    (assemble env args ec s).process_peak_memory = s.process_peak_memory := rfl

/-- The bytes a run keeps from the child's standard output: the saved chunks
joined (`b"".join(stdout_saved_bytes)`). -/
def capturedStdout (env : RunEnv) (mo : Nat) (ts : Int) : List Nat :=
  (finalState env mo ts).stdout_saved_bytes.flatten

/-- The bytes a run keeps from the child's standard error. -/
def capturedStderr (env : RunEnv) (mo : Nat) (ts : Int) : List Nat :=
  (finalState env mo ts).stderr_saved_bytes.flatten

theorem envA_stdout_bounded :
    ∀ j, (envA.stdoutAt j).length ≤ MAX_BYTES_PER_READ := by
  intro j
  by_cases h0 : j = 0
  · subst h0; decide
  · by_cases h1 : j = 1
    · subst h1; decide
    · show (if j = 0 then [0x68, 0x69] else if j = 1 then [0xFF]
          else ([] : List Nat)).length ≤ MAX_BYTES_PER_READ
      rw [if_neg h0, if_neg h1]
      decide

theorem envA_stderr_bounded :
    ∀ j, (envA.stderrAt j).length ≤ MAX_BYTES_PER_READ := by
  intro j
  show ([] : List Nat).length ≤ MAX_BYTES_PER_READ
  decide

/-- The `LaunchConfig` of a POSIX host with no sandbox identity configured. -/
def posixNoSandbox : LaunchConfig :=
  { sandboxUid := none, osIsNt := false, hasCreateNewProcessGroup := false }

/-! ## The claims -/

/-- C1: the claim says `process_cpu_time` is the sampled tree CPU ticks over
`SC_CLK_TCK` (rounded to 2 decimals) and `process_cpu_util` the tree tick
total over the system delta times 100 times the core count.  On `envA` the
sampler reports 50 tree ticks and the system delta is 100 with 4 cores, so
the claimed values are `round(50/100, 2) = 0.5` seconds and a nonzero
percentage — but the code returns 0 for both: line 164 binds the sampled
`cur_cpu` and never adds it into `process_cpu`, which stays at its initial
0 (line 111).  This theorem evaluates the embedded `run` at that input. -/
theorem claim_C1_cpu_telemetry_stuck_at_zero :
    run envA [] 1 2048 none false none = .ok rA ∧
    envA.sampleCpu 0 = 50 ∧ envA.clkTck = 100 ∧
    rA.process_cpu_time = 0 ∧
    rA.process_cpu_util = 0 ∧
    pyRound2 ((50 : ℚ) / (100 : ℚ)) = 1/2 ∧ (1/2 : ℚ) ≠ 0 := by
  refine ⟨run_envA_ok, rfl, rfl, ?_, ?_, ?_, by norm_num⟩
  · show pyRound2 ((finalState envA 2048 1).process_cpu / (envA.clkTck : ℚ)) = 0
    have h0 : (finalState envA 2048 1).process_cpu = 0 := rfl
    rw [h0, zero_div, pyRound2_zero]
  · show pyRound2 (if envA.systemCpuStart ≠ envA.systemCpuEnd then
        (finalState envA 2048 1).process_cpu /
          ((envA.systemCpuEnd : ℚ) - (envA.systemCpuStart : ℚ)) * 100 *
          (envA.cpuCount : ℚ) else 0) = 0
    have h0 : (finalState envA 2048 1).process_cpu = 0 := rfl
    rw [h0]
    have hz : (if envA.systemCpuStart ≠ envA.systemCpuEnd then
        (0 : ℚ) / ((envA.systemCpuEnd : ℚ) - (envA.systemCpuStart : ℚ)) * 100 *
          (envA.cpuCount : ℚ) else 0) = 0 := by
      split <;> simp
    rw [hz, pyRound2_zero]
  · have h : ((50 : ℚ) / 100) = 1/2 := by norm_num
    rw [h, pyRound2_half]

/-- C2: the claim says that with no sandbox identity on a host supporting
isolated process groups the child is still placed in a new group of its own
and the group-wide kill never targets the caller's group.  On a POSIX host
with `SANDBOX_UID = None` the code sets neither `start_new_session` nor a
creation flag, so the child stays in the caller's process group (here pgid
5, child pid 7), and since `os.getpgid` exists the Reaper sends `killpg` to
that very group — the caller's own. -/
theorem claim_C2_group_kill_hits_callers_group :
    startNewSession posixNoSandbox = false ∧
    ntNewProcessGroup posixNoSandbox = false ∧
    childPgid posixNoSandbox 5 7 = 5 ∧
    killTarget posixNoSandbox 5 7 = KillTarget.group 5 :=
  ⟨rfl, rfl, rfl, rfl⟩

/-- C8 counterexample: a call that launches fine (`launchOk = true`) but has
`timeout_seconds = 0` produces no result record at all — the loop body never
runs, and line 189 reads the never-bound local `exit_code`, raising
`NameError`.  So "every call that does not raise at launch returns a
complete record" is false as stated. -/
theorem claim_C8_zero_timeout_no_result :
    envA.launchOk = true ∧ run envA [] 0 2048 none false none = .nameError :=
  ⟨rfl, rfl⟩

/-- C8 amended: launch failure propagates with no result; and in every call
with `timeout_seconds ≥ 1` that launches, a complete `RunResult` (all nine
fields, assembled by `assemble`) is returned. -/
theorem claim_C8_launch_failure_propagates_else_complete_result (env : RunEnv)
    (args : List String) (ts : Int) (mo : Nat)
    (ea : Option (List (String × String))) (sh : Bool) (cwd : Option String) :
    (env.launchOk = false → run env args ts mo ea sh cwd = .launchFailure) ∧
    (env.launchOk = true → 1 ≤ ts →
      ∃ ec, run env args ts mo ea sh cwd =
        .ok (assemble env args ec (finalState env mo ts))) := by
  constructor
  · intro h
    exact run_launchFailure env args ts mo ea sh cwd h
  · intro hl hts
    exact ⟨_, run_eq_ok env args ts mo ea sh cwd _ hl
      (finalState_exitCodeVar_of_pos env mo ts hts)⟩

/-- C8 witness: the amended statement applied at the concrete oracle. -/
theorem claim_C8_witness :
    ∃ ec, run envA [] 1 2048 none false none =
      .ok (assemble envA [] ec (finalState envA 2048 1)) :=
  (claim_C8_launch_failure_propagates_else_complete_result
    envA [] 1 2048 none false none).2 rfl (by norm_num)

/-- C9: two calls differing only in the `shell` flag behave identically —
`popen_kw` hardcodes `shell=False` and the parameter is read nowhere else,
so the embedding of `run` does not depend on it. -/
theorem claim_C9_shell_flag_no_effect (env : RunEnv) (args : List String)
    (ts : Int) (mo : Nat) (ea : Option (List (String × String)))
    (cwd : Option String) (sh1 sh2 : Bool) :
    run env args ts mo ea sh1 cwd = run env args ts mo ea sh2 cwd := rfl

/-- C10: when the launch succeeds, with `timeout_seconds ≥ 1` the loop runs
at least one iteration, `exit_code` is bound, and `run` returns a result;
with `timeout_seconds ≤ 0` the loop body never runs and the post-loop read
of `exit_code` is of a never-assigned local (`NameError`). -/
theorem claim_C10_exit_code_bound_iff_loop_ran (env : RunEnv)
    (args : List String) (ts : Int) (mo : Nat)
    (ea : Option (List (String × String))) (sh : Bool) (cwd : Option String)
    (hl : env.launchOk = true) :
    (1 ≤ ts → ∃ r, run env args ts mo ea sh cwd = .ok r) ∧
    (ts ≤ 0 → run env args ts mo ea sh cwd = .nameError) := by
  constructor
  · intro hts
    exact ⟨_, run_eq_ok env args ts mo ea sh cwd _ hl
      (finalState_exitCodeVar_of_pos env mo ts hts)⟩
  · intro hts
    exact run_nameError_of_nonpos env args ts mo ea sh cwd hl hts

/-- C10 witness: both branches at the concrete oracle. -/
theorem claim_C10_witness :
    (∃ r, run envA [] 1 2048 none false none = .ok r) ∧
    run envA [] 0 2048 none false none = .nameError :=
  ⟨(claim_C10_exit_code_bound_iff_loop_ran envA [] 1 2048 none false none rfl).1
      (by norm_num),
   (claim_C10_exit_code_bound_iff_loop_ran envA [] 0 2048 none false none rfl).2
      (by norm_num)⟩

/-- C3 counterexample: the claim says invalid byte sequences are *replaced*
(U+FFFD).  On `envA` the captured stdout bytes are `68 69 FF`; replacement
decoding yields `"hi�"`, but the code (line 191, `errors="ignore"`)
returns `"hi"` — the invalid byte is dropped, not replaced. -/
theorem claim_C3_replace_decoding_refuted :
    run envA [] 1 2048 none false none = .ok rA ∧
    capturedStdout envA 2048 1 = [0x68, 0x69, 0xFF] ∧
    rA.stdout = "hi" ∧
    String.mk (utf8DecodeReplace (capturedStdout envA 2048 1)) = "hi�" ∧
    rA.stdout ≠ String.mk (utf8DecodeReplace (capturedStdout envA 2048 1)) :=
  ⟨run_envA_ok, rfl, by decide, by decide, by decide⟩

/-- C3 amended: the stdout and stderr of every returned result are the
concatenation of that stream's captured chunks decoded as UTF-8 with
invalid byte sequences *dropped* (`errors="ignore"`) rather than raising;
the decoder is a total function, so decoding never fails the call. -/
theorem claim_C3_streams_decoded_lossily (env : RunEnv) (args : List String)
    (ts : Int) (mo : Nat) (ea : Option (List (String × String))) (sh : Bool)
    (cwd : Option String) (r : RunResult)
    (h : run env args ts mo ea sh cwd = .ok r) :
    r.stdout = String.mk (utf8DecodeIgnore (capturedStdout env mo ts)) ∧
    r.stderr = String.mk (utf8DecodeIgnore (capturedStderr env mo ts)) := by
  obtain ⟨hl, ec, hec, hr⟩ := run_ok_inv env args ts mo ea sh cwd r h
  subst hr
  exact ⟨rfl, rfl⟩

/-- C3 witness: the amended statement at the concrete oracle. -/
theorem claim_C3_witness :
    rA.stdout = String.mk (utf8DecodeIgnore (capturedStdout envA 2048 1)) ∧
    rA.stderr = String.mk (utf8DecodeIgnore (capturedStderr envA 2048 1)) :=
  claim_C3_streams_decoded_lossily envA [] 1 2048 none false none rA run_envA_ok

/-- C4: `timeout = true` iff no poll inside the tick budget reported an exit
status; a timed-out result carries the sentinel `exit_code = -1`; and when
the child's exit status `c` is first observed at tick `k` within the
budget, the result has `timeout = false` and `exit_code = c`. -/
theorem claim_C4_timeout_iff_no_exit_observed (env : RunEnv)
    (args : List String) (ts : Int) (mo : Nat)
    (ea : Option (List (String × String))) (sh : Bool) (cwd : Option String)
    (r : RunResult) (h : run env args ts mo ea sh cwd = .ok r) :
    (r.timeout = true ↔ ∀ i, i < (ts * 10).toNat → env.pollAt i = none) ∧
    (r.timeout = true → r.exit_code = -1) ∧
    (∀ k c, k < (ts * 10).toNat → env.pollAt k = some c →
      (∀ j, j < k → env.pollAt j = none) →
      r.timeout = false ∧ r.exit_code = c) := by
  obtain ⟨hl, ec, hec, hr⟩ := run_ok_inv env args ts mo ea sh cwd r h
  have hb : 1 ≤ (ts * 10).toNat := run_ok_budget_pos env args ts mo ea sh cwd r h
  subst hr
  have hfs : (finalState env mo ts).exitCodeVar =
      some (env.pollAt (ticksOf env mo ts - 1)) := by
    simpa [finalState, ticksOf] using
      runLoop_exitCodeVar env mo (ts * 10).toNat hb 0 LoopState.init
  rw [hfs] at hec
  have hecc : env.pollAt (ticksOf env mo ts - 1) = ec := Option.some.inj hec
  have hn1 : 1 ≤ ticksOf env mo ts := by
    simpa [ticksOf] using
      runLoop_ticks_pos env mo (ts * 10).toNat hb 0 LoopState.init
  have hnB : ticksOf env mo ts ≤ (ts * 10).toNat := by
    simpa [ticksOf] using
      runLoop_ticks_le env mo (ts * 10).toNat 0 LoopState.init
  have hpre : ∀ j, j + 1 < ticksOf env mo ts → env.pollAt j = none := by
    intro j hj
    simpa using runLoop_prefix_none env mo (ts * 10).toNat 0 LoopState.init j
      (by simpa [ticksOf] using hj)
  have hearly : ticksOf env mo ts < (ts * 10).toNat →
      (env.pollAt (ticksOf env mo ts - 1)).isSome := by
    intro hlt
    simpa [ticksOf] using runLoop_early_exit env mo (ts * 10).toNat 0
      LoopState.init (by simpa [ticksOf] using hlt)
  refine ⟨?_, ?_, ?_⟩
  · rw [assemble_timeout]
    constructor
    · intro hnone i hi
      have hecn : ec = none := Option.isNone_iff_eq_none.mp hnone
      have hlast : env.pollAt (ticksOf env mo ts - 1) = none := by
        rw [hecc, hecn]
      have hfull : ticksOf env mo ts = (ts * 10).toNat := by
        by_contra hne
        have := hearly (by omega)
        rw [hlast] at this
        simp at this
      by_cases hj : i + 1 < ticksOf env mo ts
      · exact hpre i hj
      · have : i = ticksOf env mo ts - 1 := by omega
        rw [this]
        exact hlast
    · intro hall
      have : env.pollAt (ticksOf env mo ts - 1) = none :=
        hall (ticksOf env mo ts - 1) (by omega)
      rw [hecc] at this
      rw [this]
      rfl
  · intro htm
    rw [assemble_timeout] at htm
    rw [assemble_exit_code, Option.isNone_iff_eq_none.mp htm]
    rfl
  · intro k c hk hkc hfirst
    have hticks : ticksOf env mo ts = k + 1 := by
      simpa [ticksOf] using runLoop_first_exit env mo (ts * 10).toNat 0
        LoopState.init k hk (by simp [hkc]) (by simpa using hfirst)
    have : ec = some c := by
      rw [← hecc, hticks]
      simpa using hkc
    subst this
    exact ⟨rfl, rfl⟩

/-- C4 witness: the theorem at the concrete oracle, where the exit status 0
is first observed at tick 2: the result is not a timeout and carries 0. -/
theorem claim_C4_witness :
    (rA.timeout = true ↔ ∀ i, i < ((1 : Int) * 10).toNat →
      envA.pollAt i = none) ∧
    rA.timeout = false ∧ rA.exit_code = 0 := by
  have t := claim_C4_timeout_iff_no_exit_observed envA [] 1 2048 none false
    none rA run_envA_ok
  have hko := t.2.2 2 0 (by decide) (by decide) (by decide)
  exact ⟨t.1, hko.1, hko.2⟩

/-- C5: output caps.  For the thread body `read_stream` (Windows path) the
final byte counter — which equals the byte length of the captured output —
never exceeds `max_output_size` by more than one ≤1024-byte chunk, and a
counter at or past the cap accepts nothing further; the per-tick reads of
the POSIX loop obey the same bound for both streams, and a `doTick` whose
counter has reached the cap discards the arriving chunk. -/
theorem claim_C5_output_cap_overshoot_bounded (mo : Nat)
    (cs : List (List Nat)) (hcs : ∀ c ∈ cs, c.length ≤ MAX_BYTES_PER_READ)
    (env : RunEnv)
    (hout : ∀ j, (env.stdoutAt j).length ≤ MAX_BYTES_PER_READ)
    (herr : ∀ j, (env.stderrAt j).length ≤ MAX_BYTES_PER_READ)
    (ts : Int) :
    (read_stream mo cs 0 []).2 ≤ mo + MAX_BYTES_PER_READ ∧
    (read_stream mo cs 0 []).1.flatten.length ≤ mo + MAX_BYTES_PER_READ ∧
    (∀ cs2 size acc, mo ≤ size → read_stream mo cs2 size acc = (acc, size)) ∧
    (finalState env mo ts).stdout_bytes_read ≤ mo + MAX_BYTES_PER_READ ∧
    (finalState env mo ts).stderr_bytes_read ≤ mo + MAX_BYTES_PER_READ ∧
    (capturedStdout env mo ts).length ≤ mo + MAX_BYTES_PER_READ ∧
    (capturedStderr env mo ts).length ≤ mo + MAX_BYTES_PER_READ ∧
    (∀ i s, mo ≤ s.stdout_bytes_read →
      (doTick env mo i s).stdout_saved_bytes = s.stdout_saved_bytes) ∧
    (∀ i s, mo ≤ s.stderr_bytes_read →
      (doTick env mo i s).stderr_saved_bytes = s.stderr_saved_bytes) := by
  have hB : MAX_BYTES_PER_READ = 1024 := rfl
  have h0 : (0 : Nat) < mo + MAX_BYTES_PER_READ := by omega
  have hrs := read_stream_size_lt mo cs 0 [] hcs h0
  have hrsf := read_stream_size_eq_flatten mo cs 0 [] rfl
  have hso : (finalState env mo ts).stdout_bytes_read < mo + MAX_BYTES_PER_READ := by
    simpa [finalState] using runLoop_stdout_count_lt env mo hout
      (ts * 10).toNat 0 LoopState.init (by simpa [LoopState.init] using h0)
  have hse : (finalState env mo ts).stderr_bytes_read < mo + MAX_BYTES_PER_READ := by
    simpa [finalState] using runLoop_stderr_count_lt env mo herr
      (ts * 10).toNat 0 LoopState.init (by simpa [LoopState.init] using h0)
  have hsof : (finalState env mo ts).stdout_bytes_read =
      (capturedStdout env mo ts).length := by
    simpa [finalState, capturedStdout] using
      runLoop_stdout_count_eq_flatten env mo (ts * 10).toNat 0 LoopState.init rfl
  have hsef : (finalState env mo ts).stderr_bytes_read =
      (capturedStderr env mo ts).length := by
    simpa [finalState, capturedStderr] using
      runLoop_stderr_count_eq_flatten env mo (ts * 10).toNat 0 LoopState.init rfl
  refine ⟨le_of_lt hrs, ?_, ?_, le_of_lt hso, le_of_lt hse, ?_, ?_, ?_, ?_⟩
  · rw [← hrsf]
    exact le_of_lt hrs
  · intro cs2 size acc hsz
    exact read_stream_stops mo cs2 size acc hsz
  · rw [← hsof]
    exact le_of_lt hso
  · rw [← hsef]
    exact le_of_lt hse
  · intro i s hs
    rw [(doTick_stdout env mo i s).1]
    have : ¬ s.stdout_bytes_read < mo := by omega
    simp [this]
  · intro i s hs
    rw [(doTick_stderr env mo i s).1]
    have : ¬ s.stderr_bytes_read < mo := by omega
    simp [this]

/-- C5 witness: the cap bounds at a concrete stream and the concrete oracle. -/
theorem claim_C5_witness :
    (read_stream 2048 [[1, 2, 3]] 0 []).2 ≤ 2048 + MAX_BYTES_PER_READ ∧
    (finalState envA 2048 1).stdout_bytes_read ≤ 2048 + MAX_BYTES_PER_READ ∧
    (finalState envA 2048 1).stderr_bytes_read ≤ 2048 + MAX_BYTES_PER_READ := by
  have t := claim_C5_output_cap_overshoot_bounded 2048 [[1, 2, 3]] (by decide)
    envA envA_stdout_bounded envA_stderr_bounded 1
  exact ⟨t.1, t.2.2.2.1, t.2.2.2.2.1⟩

/-- C6: the returned `process_peak_memory` is exactly the running maximum
(`peakFrom`, started at 0) of the per-tick memory samples over the executed
ticks; the running maximum starts at 0 and never decreases from one tick to
the next, and every single sample is ≤ the returned value. -/
theorem claim_C6_peak_memory_is_running_max (env : RunEnv)
    (args : List String) (ts : Int) (mo : Nat)
    (ea : Option (List (String × String))) (sh : Bool) (cwd : Option String)
    (r : RunResult) (h : run env args ts mo ea sh cwd = .ok r) :
    r.process_peak_memory = peakFrom env 0 0 (ticksOf env mo ts) ∧
    peakFrom env 0 0 0 = 0 ∧
    (∀ k, peakFrom env 0 0 k ≤ peakFrom env 0 0 (k + 1)) ∧
    (∀ i, i < ticksOf env mo ts → env.sampleMem i ≤ r.process_peak_memory) := by
  obtain ⟨hl, ec, hec, hr⟩ := run_ok_inv env args ts mo ea sh cwd r h
  subst hr
  have hpk : (finalState env mo ts).process_peak_memory =
      peakFrom env 0 0 (ticksOf env mo ts) := by
    simpa [finalState, ticksOf, LoopState.init] using
      runLoop_peak env mo (ts * 10).toNat 0 LoopState.init
  refine ⟨by rw [assemble_peak, hpk], rfl,
    fun k => peakFrom_mono env k 0 0, ?_⟩
  intro i hi
  rw [assemble_peak, hpk]
  simpa using sampleMem_le_peakFrom env (ticksOf env mo ts) 0 0 i hi

/-- C6 witness: the theorem at the concrete oracle, whose peak is the first
tick's 100 kB sample. -/
theorem claim_C6_witness :
    (rA.process_peak_memory = peakFrom envA 0 0 (ticksOf envA 2048 1) ∧
      peakFrom envA 0 0 0 = 0 ∧
      (∀ k, peakFrom envA 0 0 k ≤ peakFrom envA 0 0 (k + 1)) ∧
      (∀ i, i < ticksOf envA 2048 1 →
        envA.sampleMem i ≤ rA.process_peak_memory)) ∧
    rA.process_peak_memory = 100 :=
  ⟨claim_C6_peak_memory_is_running_max envA [] 1 2048 none false none rA
      run_envA_ok, rfl⟩

/-- C7: the polling loop executes at most `timeout_seconds * 10` ticks (the
budget; `range` of a non-positive bound is empty), and when the first
observable exit status lies at tick `k` inside the budget the loop stops
right there, after `k + 1` ticks.  `ticksOf` is total, so the loop always
terminates within the budget. -/
theorem claim_C7_tick_budget_bounds_loop (env : RunEnv) (mo : Nat) (ts : Int) :
    ticksOf env mo ts ≤ (ts * 10).toNat ∧
    (∀ k, k < (ts * 10).toNat → (env.pollAt k).isSome →
      (∀ j, j < k → env.pollAt j = none) → ticksOf env mo ts = k + 1) := by
  constructor
  · simpa [ticksOf] using
      runLoop_ticks_le env mo (ts * 10).toNat 0 LoopState.init
  · intro k hk hsome hfirst
    simpa [ticksOf] using runLoop_first_exit env mo (ts * 10).toNat 0
      LoopState.init k hk (by simpa using hsome) (by simpa using hfirst)

/-- C7 witness: on the concrete oracle the exit is first seen at tick 2 of
the 10-tick budget, and the loop executes exactly 3 ticks. -/
theorem claim_C7_witness :
    ticksOf envA 2048 1 ≤ ((1 : Int) * 10).toNat ∧
    ticksOf envA 2048 1 = 2 + 1 :=
  ⟨(claim_C7_tick_budget_bounds_loop envA 2048 1).1,
   (claim_C7_tick_budget_bounds_loop envA 2048 1).2 2 (by decide) (by decide)
     (by decide)⟩

end SafeSubprocess
